import Mathlib

/-!
# pet-theory-rest-api: customer lookup and treatment-amount aggregation

A shallow embedding of `main.go`: the Firestore client is an explicit `Store`
value, the document iterator is the list of results its `Next` calls produce,
`int64` is `Int` wrapped at every arithmetic step, and an HTTP response is the
status code together with the payload handed to the JSON encoder.
-/

namespace PetTheory

/-! ## Machine integers and floating-point values -/

/-- Smallest `int64`. -/
def minInt64 : Int := -9223372036854775808

/-- Largest `int64`. -/
def maxInt64 : Int := 9223372036854775807

/-- Reduction of an integer to the `int64` it denotes in two's complement:
Go's `int64` arithmetic wraps around on overflow. -/
def wrapInt64 (x : Int) : Int :=
  (x + 9223372036854775808) % 18446744073709551616 - 9223372036854775808

/-- Range test for `int64`. -/
def inInt64 (x : Int) : Prop := minInt64 ≤ x ∧ x ≤ maxInt64

instance decidableInInt64 (x : Int) : Decidable (inInt64 x) := by
  unfold inInt64; exact inferInstance

/-- A Go floating-point value (`float64` or `float32`), by its exact content:
a finite value is `± mant * 2 ^ exp`; the others are the infinities and NaN. -/
inductive GoFloat where
  | finite (neg : Bool) (mant : Nat) (exp : Int)
  | inf (neg : Bool)
  | nan
  deriving DecidableEq, Repr

/-- The value with its fraction discarded (truncation toward zero), for a
finite value; infinities and NaN have none. -/
def GoFloat.trunc : GoFloat → Option Int
  | .finite neg mant exp =>
    let mag : Nat := if 0 ≤ exp then mant * 2 ^ exp.toNat else mant / 2 ^ (-exp).toNat
    some (if neg then -(mag : Int) else (mag : Int))
  | .inf _ => none
  | .nan => none

/-- The conversion `int64(v)` of a floating-point `v`. The Go specification
discards the fraction, and where `int64` cannot represent the result "the
conversion succeeds but the result value is implementation-dependent": that
value is the parameter `conv`, read as an `int64`. -/
def floatToInt64 (conv : GoFloat → Int) (v : GoFloat) : Int :=
  match v.trunc with
  | some t => if inInt64 t then t else wrapInt64 (conv v)
  | none => wrapInt64 (conv v)

/-! ## Documents -/

/-- A field value as `doc.Data()` hands it over (`interface{}`). Firestore
yields `int64` and `float64` for numbers; `int` and `float32` are the two other
dynamic types the type switch of `getAmounts` names; `other` stands for the
remaining kinds (bytes, timestamps, references, geo points, arrays, maps),
which the program never inspects. -/
inductive Value where
  | null
  | bool (b : Bool)
  | str (s : String)
  | int64 (v : Int)
  | int (v : Int)
  | float64 (v : GoFloat)
  | float32 (v : GoFloat)
  | other (kind : String)
  deriving DecidableEq, Repr

/-- The field map of a document, `map[string]interface{}`. -/
abbrev Doc := List (String × Value)

/-- The two-valued index expression `data[key]`. -/
def Doc.get (data : Doc) (key : String) : Option Value := data.lookup key

/-- The record `Customer`. -/
structure Customer where
  email : String
  id : String
  name : String
  phone : String
  deriving DecidableEq, Repr

/-! ## Errors and the store -/

/-- An error raised by the Firestore client (other than `iterator.Done`). -/
structure StorageError where
  msg : String
  deriving DecidableEq, Repr

/-- A non-nil `error` value of the program: made by `fmt.Errorf` in the
program itself, or handed over by the Firestore client. -/
inductive GoError where
  | errorf (msg : String)
  | storage (e : StorageError)
  deriving DecidableEq, Repr

/-- The method `Error()`, which `%v` prints. -/
def GoError.Error : GoError → String
  | .errorf msg => msg
  | .storage e => e.msg

/-- One result of `iter.Next()` other than `iterator.Done`. -/
inductive IterEvent where
  | doc (data : Doc)
  | fail (e : StorageError)
  deriving DecidableEq, Repr

/-- The outcome of the limit-1 query of `getCustomer`: `iter.Next()` reports
`iterator.Done`, fails, or yields a snapshot, whose `DataTo` then fails or
fills the record. -/
inductive CustomerQuery where
  | done
  | fail (e : StorageError)
  | doc (dataTo : Except StorageError Customer)

/-- The Firestore client, as the capability the program consumes: the
equality query on `customers`, and the iteration of a collection path, given
by the results of the successive `Next` calls (`iterator.Done` after the last
one). -/
structure Store where
  customersWhereId : String → CustomerQuery
  documents : String → List IterEvent

/-! ## Maps and responses -/

/-- A `map[string]int64`, as the list of its entries. -/
abbrev GoMap := List (String × Int)

/-- The two-valued index expression `m[key]`. -/
def GoMap.get (m : GoMap) (key : String) : Option Int := m.lookup key

/-- The assignment `m[key] = v`: replaces the entry of `key`, or adds one. -/
def GoMap.set (m : GoMap) (key : String) (v : Int) : GoMap :=
  match m with
  | [] => [(key, v)]
  | (k, w) :: rest => if k = key then (k, v) :: rest else (k, w) :: GoMap.set rest key v

/-- The keys of a map. -/
def GoMap.keys (m : GoMap) : List String := m.map Prod.fst

/-- A value of a payload map handed to the JSON encoder. -/
inductive Field where
  | text (s : String)
  | strings (m : List (String × String))
  | amounts (m : GoMap)
  deriving DecidableEq, Repr

/-- What `writeJSON` produces: the status code, the `Content-Type` header and
the payload that is encoded as the body. -/
structure Response where
  code : Nat
  contentType : String
  payload : List (String × Field)
  deriving DecidableEq, Repr

/-- The function `writeJSON`. -/
def writeJSON (status : Nat) (payload : List (String × Field)) : Response :=
  { code := status, contentType := "application/json", payload := payload }

/-! ## The program -/

/-- The function `rootHandler`. -/
def rootHandler : Response :=
  writeJSON 200 [("status", .text "running")]

/-- The function `getCustomer`. -/
def getCustomer (client : Store) (id : String) : Option Customer × Option GoError :=
  match client.customersWhereId id with
  | .done => (none, none)
  | .fail e => (none, some (.storage e))
  | .doc (.error e) => (none, some (.storage e))
  | .doc (.ok c) => (some c, none)

/-- The type switch on `costRaw` in `getAmounts`: the `int64` it assigns to
`costInt64`, or `none` in the `default` case. -/
def costSwitch (conv : GoFloat → Int) : Value → Option Int
  | .int64 v => some v
  | .int v => some v
  | .float64 v => some (floatToInt64 conv v)
  | .float32 v => some (floatToInt64 conv v)
  | _ => none

/-- The body of the `for` loop of `getAmounts` after a successful `Next`:
the map `result` after the document `data`; every `continue` leaves it as it
is. -/
def loopBody (conv : GoFloat → Int) (result : GoMap) (data : Doc) : GoMap :=
  match data.get "status" with
  | none => result
  | some (.str status) =>
    match data.get "cost" with
    | some costRaw =>
      match costSwitch conv costRaw with
      | some costInt64 =>
        match result.get status with
        | some old => result.set status (wrapInt64 (old + costInt64))
        | none => result
      | none => result
    | none => result
  | some _ => result

/-- The `for` loop of `getAmounts`, over the results of the `Next` calls. -/
def getAmountsLoop (conv : GoFloat → Int) : GoMap → List IterEvent → GoMap × Option GoError
  | result, [] => (result, none)
  | result, .fail e :: _ => (result, some (.storage e))
  | result, .doc data :: rest => getAmountsLoop conv (loopBody conv result data) rest

/-- The path `fmt.Sprintf("customers/%s/treatments", c.Email)`. -/
def collPath (c : Customer) : String := "customers/" ++ c.email ++ "/treatments"

/-- The function `getAmounts`; a nil customer is `none`. -/
def getAmounts (conv : GoFloat → Int) (client : Store) (c : Option Customer) :
    GoMap × Option GoError :=
  match c with
  | none => ([], some (.errorf "Customer is nil"))
  | some c =>
    getAmountsLoop conv [("proposed", 0), ("approved", 0), ("rejected", 0)]
      (client.documents (collPath c))

/-- The function `customerHandler`, for the path parameter `id`: the response
it writes. -/
def customerHandler (conv : GoFloat → Int) (client : Store) (id : String) : Response :=
  match getCustomer client id with
  | (_, some err) =>
    writeJSON 500
      [("status", .text "fail"), ("data", .text ("Error fetching customer: " ++ err.Error))]
  | (none, none) =>
    writeJSON 404
      [("status", .text "fail"),
       ("data", .strings [("title", "Customer \"" ++ id ++ "\" not found")])]
  | (some cust, none) =>
    match getAmounts conv client (some cust) with
    | (_, some err) =>
      writeJSON 500
        [("status", .text "fail"), ("data", .text ("Unable to fetch amounts: " ++ err.Error))]
    | (amounts, none) =>
      writeJSON 200 [("status", .text "success"), ("data", .amounts amounts)]

/-! ## Definitions used to state the properties -/

/-- The store `client` with the collection at `path` yielding `events`. -/
def Store.withDocuments (client : Store) (path : String) (events : List IterEvent) : Store :=
  { client with documents := fun p => if p = path then events else client.documents p }

/-- The result map with the given totals for the three seeded keys. -/
def amountsOf (proposed approved rejected : Int) : GoMap :=
  [("proposed", proposed), ("approved", approved), ("rejected", rejected)]

/-- The amount `loopBody` takes from a document for the bucket `key`: the
converted cost, when the status is the string `key` and the cost has one of
the four numeric types. -/
def qualifyingCost (conv : GoFloat → Int) (key : String) (data : Doc) : Option Int :=
  match data.get "status", data.get "cost" with
  | some (.str status), some costRaw => if status = key then costSwitch conv costRaw else none
  | _, _ => none

/-- The exact sum of the amounts a document sequence holds for `key`. -/
def total (conv : GoFloat → Int) (key : String) (docs : List Doc) : Int :=
  (docs.filterMap (qualifyingCost conv key)).sum

/-- The bucket value `x` after one document. -/
def bump (x : Int) : Option Int → Int
  | some c => wrapInt64 (x + c)
  | none => x

/-- The bucket value `x` after a document sequence. -/
def accum (conv : GoFloat → Int) (key : String) (x : Int) (docs : List Doc) : Int :=
  docs.foldl (fun x d => bump x (qualifyingCost conv key d)) x

/-- The cost as the integer the specification counts: an integer cost itself,
a finite floating-point cost truncated toward zero; `none` for a cost that is
not numeric, and for the infinities and NaN, which have no truncation. -/
def truncatedCost : Value → Option Int
  | .int64 v => some v
  | .int v => some v
  | .float64 v => v.trunc
  | .float32 v => v.trunc
  | _ => none

/-- The truncated-integer cost of a document whose status is the string `key`
and whose cost is numeric. -/
def specCost (key : String) (data : Doc) : Option Int :=
  match data.get "status", data.get "cost" with
  | some (.str status), some costRaw => if status = key then truncatedCost costRaw else none
  | _, _ => none

/-- The integer sum of the truncated-integer costs of the documents whose
status is `key` and whose cost is numeric. -/
def specTotal (key : String) (docs : List Doc) : Int :=
  (docs.filterMap (specCost key)).sum

/-- A floating-point cost is finite and its truncation is an `int64`; any
other value passes. -/
def Value.convertsExactly : Value → Bool
  | .float64 v => match v.trunc with
    | some t => decide (inInt64 t)
    | none => false
  | .float32 v => match v.trunc with
    | some t => decide (inInt64 t)
    | none => false
  | _ => true

/-- The cost of the document converts exactly, when the document counts for
one of the three seeded keys: its status is one of them and it has a cost. -/
def Doc.costConvertsExactly (data : Doc) : Bool :=
  match data.get "status", data.get "cost" with
  | some (.str status), some v =>
    if status = "proposed" ∨ status = "approved" ∨ status = "rejected" then v.convertsExactly
    else true
  | _, _ => true

/-- The value is an integer or a floating-point number. -/
def Value.isNumber : Value → Bool
  | .int64 _ => true
  | .int _ => true
  | .float64 _ => true
  | .float32 _ => true
  | _ => false

/-- A document with no status field, a non-string status, a string status
other than the three seeded keys, no cost field, or a cost that is not a
number. -/
def Doc.ignorable (data : Doc) : Prop :=
  data.get "status" = none ∨
  (∃ v, data.get "status" = some v ∧ ∀ s, v ≠ Value.str s) ∨
  (∃ s, data.get "status" = some (Value.str s) ∧
    s ≠ "proposed" ∧ s ≠ "approved" ∧ s ≠ "rejected") ∨
  data.get "cost" = none ∨
  (∃ v, data.get "cost" = some v ∧ v.isNumber = false)

/-- The key-wise sum of two result maps in `int64` arithmetic. -/
def GoMap.addInt64 (m n : GoMap) : GoMap :=
  m.map fun entry => (entry.1, wrapInt64 (entry.2 + (n.get entry.1).getD 0))

/-- The floating-point value `n.0` of an integer `n`. -/
def GoFloat.ofInt (n : Int) : GoFloat := .finite (decide (n < 0)) n.natAbs 0

/-- The `float64` nearest to 5.9, which is `3321404725185741 / 2 ^ 49`. -/
def fivePointNine : GoFloat := .finite false 3321404725185741 (-49)

/-- The `float64` of value `2 ^ 63`, one more than the largest `int64`. -/
def twoPow63 : GoFloat := .finite false 4503599627370496 11

/-- The out-of-range conversion on amd64: every such conversion yields the
smallest `int64`. -/
def amd64Conv : GoFloat → Int := fun _ => -9223372036854775808

/-- The customer of the end-to-end example. -/
def exampleCustomer : Customer := { email := "a@b.com", id := "abc", name := "", phone := "" }

/-- A treatment document with a string status and an `int64` cost. -/
def treatment (status : String) (cost : Int) : Doc :=
  [("status", .str status), ("cost", .int64 cost)]

/-- The treatments of the end-to-end example. -/
def exampleTreatments : List Doc :=
  [treatment "approved" 100, treatment "approved" 50, treatment "rejected" 10,
   treatment "pending" 5]

/-- A store that holds exactly the customer `abc` and no treatments. -/
def baseStore : Store :=
  { customersWhereId := fun id => if id = "abc" then .doc (.ok exampleCustomer) else .done,
    documents := fun _ => [] }

/-- The store of the end-to-end example. -/
def exampleStore : Store :=
  baseStore.withDocuments (collPath exampleCustomer) (exampleTreatments.map IterEvent.doc)

/-- A store whose customer query fails. -/
def brokenStore : Store :=
  { customersWhereId := fun _ => .fail { msg := "unavailable" },
    documents := fun _ => [] }

/-- A store whose treatment iterator fails after the first document. -/
def flakyStore : Store :=
  baseStore.withDocuments (collPath exampleCustomer)
    [.doc (treatment "approved" 100), .fail { msg := "deadline exceeded" },
     .doc (treatment "approved" 50)]

/-- The function `customerHandler` with the function it calls for the amounts
as the parameter `amounts`, applied to the very argument the handler passes. -/
def customerHandlerWith (amounts : Option Customer → GoMap × Option GoError) (client : Store)
    (id : String) : Response :=
  match getCustomer client id with
  | (_, some err) =>
    writeJSON 500
      [("status", .text "fail"), ("data", .text ("Error fetching customer: " ++ err.Error))]
  | (none, none) =>
    writeJSON 404
      [("status", .text "fail"),
       ("data", .strings [("title", "Customer \"" ++ id ++ "\" not found")])]
  | (some cust, none) =>
    match amounts (some cust) with
    | (_, some err) =>
      writeJSON 500
        [("status", .text "fail"), ("data", .text ("Unable to fetch amounts: " ++ err.Error))]
    | (result, none) =>
      writeJSON 200 [("status", .text "success"), ("data", .amounts result)]

/-- A stand-in for `getAmounts` that differs from it on a nil customer only:
there it returns the seeded map and no error. -/
def getAmountsNilOk (conv : GoFloat → Int) (client : Store) (c : Option Customer) :
    GoMap × Option GoError :=
  match c with
  | none => ([("proposed", 0), ("approved", 0), ("rejected", 0)], none)
  | some cust => getAmounts conv client (some cust)

/-- A store whose treatment iterator fails at once, with an error whose
message is the text "Customer is nil". -/
def nilTextStore : Store :=
  baseStore.withDocuments (collPath exampleCustomer) [.fail { msg := "Customer is nil" }]

/-! ## Arithmetic of `wrapInt64` -/

theorem wrapInt64_of_inInt64 (x : Int) (h : inInt64 x) : wrapInt64 x = x := by
  unfold inInt64 minInt64 maxInt64 at h
  unfold wrapInt64
  omega

theorem inInt64_wrapInt64 (x : Int) : inInt64 (wrapInt64 x) := by
  unfold inInt64 minInt64 maxInt64 wrapInt64
  omega

theorem wrapInt64_wrap_add (x y : Int) : wrapInt64 (wrapInt64 x + y) = wrapInt64 (x + y) := by
  unfold wrapInt64
  omega

theorem wrapInt64_add_wrap (x y : Int) :
    wrapInt64 (wrapInt64 x + wrapInt64 y) = wrapInt64 (x + y) := by
  unfold wrapInt64
  omega

/-! ## The loop on the three seeded keys -/

theorem withDocuments_documents (client : Store) (path : String) (events : List IterEvent) :
    (client.withDocuments path events).documents path = events := by
  simp [Store.withDocuments]

theorem loopBody_amountsOf (conv : GoFloat → Int) (p a r : Int) (d : Doc) :
    loopBody conv (amountsOf p a r) d =
      amountsOf (bump p (qualifyingCost conv "proposed" d))
        (bump a (qualifyingCost conv "approved" d))
        (bump r (qualifyingCost conv "rejected" d)) := by
  unfold loopBody qualifyingCost
  cases hs : Doc.get d "status" with
  | none => simp [bump]
  | some v =>
    cases v with
    | str s =>
      cases hc : Doc.get d "cost" with
      | none => simp [bump]
      | some c =>
        cases hk : costSwitch conv c with
        | none => simp [bump, hk]
        | some n =>
          by_cases h1 : s = "proposed"
          · subst h1; simp [bump, amountsOf, GoMap.get, GoMap.set, List.lookup, hk]
          · by_cases h2 : s = "approved"
            · subst h2; simp [bump, amountsOf, GoMap.get, GoMap.set, List.lookup, hk]
            · by_cases h3 : s = "rejected"
              · subst h3; simp [bump, amountsOf, GoMap.get, GoMap.set, List.lookup, hk]
              · have e1 : (s == "proposed") = false := by simp [h1]
                have e2 : (s == "approved") = false := by simp [h2]
                have e3 : (s == "rejected") = false := by simp [h3]
                simp [bump, amountsOf, GoMap.get, GoMap.set, List.lookup, h1, h2, h3, hk, e1, e2, e3]
    | _ => simp [bump]

theorem getAmountsLoop_docs (conv : GoFloat → Int) (docs : List Doc) (p a r : Int) :
    getAmountsLoop conv (amountsOf p a r) (docs.map IterEvent.doc) =
      (amountsOf (accum conv "proposed" p docs) (accum conv "approved" a docs)
        (accum conv "rejected" r docs), none) := by
  induction docs generalizing p a r with
  | nil => simp [getAmountsLoop, accum]
  | cons d ds ih =>
    simp only [List.map_cons, getAmountsLoop, loopBody_amountsOf, ih]
    simp [accum]

theorem accum_eq (conv : GoFloat → Int) (key : String) (docs : List Doc) (x : Int)
    (hx : inInt64 x) : accum conv key x docs = wrapInt64 (x + total conv key docs) := by
  induction docs generalizing x with
  | nil => simp [accum, total, wrapInt64_of_inInt64 x hx]
  | cons d ds ih =>
    have hstep : accum conv key x (d :: ds) =
        accum conv key (bump x (qualifyingCost conv key d)) ds := by
      simp [accum]
    rw [hstep]
    cases hq : qualifyingCost conv key d with
    | none =>
      simp only [bump]
      rw [ih x hx]
      simp [total, List.filterMap_cons, hq]
    | some c =>
      simp only [bump]
      rw [ih _ (inInt64_wrapInt64 _), wrapInt64_wrap_add]
      simp [total, List.filterMap_cons, hq, add_assoc]

theorem getAmounts_docs (conv : GoFloat → Int) (client : Store) (cust : Customer)
    (docs : List Doc) :
    getAmounts conv (client.withDocuments (collPath cust) (docs.map IterEvent.doc)) (some cust) =
      (amountsOf (wrapInt64 (total conv "proposed" docs)) (wrapInt64 (total conv "approved" docs))
        (wrapInt64 (total conv "rejected" docs)), none) := by
  have h0 : inInt64 0 := by decide
  have hseed : [("proposed", (0 : Int)), ("approved", 0), ("rejected", 0)] = amountsOf 0 0 0 := rfl
  simp only [getAmounts, withDocuments_documents, hseed, getAmountsLoop_docs]
  rw [accum_eq conv _ docs 0 h0, accum_eq conv _ docs 0 h0, accum_eq conv _ docs 0 h0]
  simp

/-! ## Supporting lemmas -/

theorem qualifyingCost_eq_specCost (conv : GoFloat → Int) (key : String) (d : Doc)
    (hkey : key = "proposed" ∨ key = "approved" ∨ key = "rejected")
    (h : d.costConvertsExactly = true) : qualifyingCost conv key d = specCost key d := by
  unfold qualifyingCost specCost
  unfold Doc.costConvertsExactly at h
  cases hs : Doc.get d "status" with
  | none => rfl
  | some v =>
    cases hc : Doc.get d "cost" with
    | none => cases v <;> rfl
    | some c =>
      rw [hs, hc] at h
      cases v with
      | str s =>
        by_cases hk : s = key
        · subst hk
          simp only [hkey, if_true] at h
          simp only [if_true]
          cases c with
          | float64 f =>
            simp only [Value.convertsExactly] at h
            cases ht : f.trunc with
            | none => rw [ht] at h; simp at h
            | some t =>
              rw [ht] at h
              simp [costSwitch, truncatedCost, floatToInt64, ht, of_decide_eq_true h]
          | float32 f =>
            simp only [Value.convertsExactly] at h
            cases ht : f.trunc with
            | none => rw [ht] at h; simp at h
            | some t =>
              rw [ht] at h
              simp [costSwitch, truncatedCost, floatToInt64, ht, of_decide_eq_true h]
          | _ => rfl
        · simp [hk]
      | _ => rfl

theorem total_eq_specTotal (conv : GoFloat → Int) (key : String) (docs : List Doc)
    (hkey : key = "proposed" ∨ key = "approved" ∨ key = "rejected")
    (h : ∀ d ∈ docs, d.costConvertsExactly = true) : total conv key docs = specTotal key docs := by
  unfold total specTotal
  induction docs with
  | nil => rfl
  | cons d ds ih =>
    have hd := qualifyingCost_eq_specCost conv key d hkey (h d (List.mem_cons_self d ds))
    have hds := ih (fun x hx => h x (List.mem_cons_of_mem d hx))
    simp only [List.filterMap_cons, hd]
    cases specCost key d with
    | none => exact hds
    | some c => simp only [List.sum_cons, hds]

theorem qualifyingCost_ignorable (conv : GoFloat → Int) (key : String) (d : Doc)
    (hkey : key = "proposed" ∨ key = "approved" ∨ key = "rejected") (h : d.ignorable) :
    qualifyingCost conv key d = none := by
  unfold qualifyingCost
  rcases h with h | ⟨v, hv, hns⟩ | ⟨s, hs, h1, h2, h3⟩ | h | ⟨v, hv, hn⟩
  · rw [h]
  · rw [hv]
    cases v with
    | str s => exact absurd rfl (hns s)
    | _ => rfl
  · rw [hs]
    have hk : s ≠ key := by
      rcases hkey with rfl | rfl | rfl <;> assumption
    cases Doc.get d "cost" with
    | none => rfl
    | some c => simp [hk]
  · rw [h]
    cases Doc.get d "status" with
    | none => rfl
    | some v => cases v <;> rfl
  · rw [hv]
    cases hs : Doc.get d "status" with
    | none => rfl
    | some w =>
      cases w with
      | str s =>
        have hc : costSwitch conv v = none := by
          cases v <;> simp [Value.isNumber] at hn <;> rfl
        simp [hc]
      | _ => rfl

theorem loopBody_ignorable (conv : GoFloat → Int) (p a r : Int) (d : Doc) (h : d.ignorable) :
    loopBody conv (amountsOf p a r) d = amountsOf p a r := by
  rw [loopBody_amountsOf,
    qualifyingCost_ignorable conv "proposed" d (Or.inl rfl) h,
    qualifyingCost_ignorable conv "approved" d (Or.inr (Or.inl rfl)) h,
    qualifyingCost_ignorable conv "rejected" d (Or.inr (Or.inr rfl)) h]
  rfl

theorem getAmountsLoop_insert_ignorable (conv : GoFloat → Int) (d : Doc) (h : d.ignorable)
    (post pre : List IterEvent) (p a r : Int) :
    getAmountsLoop conv (amountsOf p a r) (pre ++ IterEvent.doc d :: post) =
      getAmountsLoop conv (amountsOf p a r) (pre ++ post) := by
  induction pre generalizing p a r with
  | nil => simp [getAmountsLoop, loopBody_ignorable conv p a r d h]
  | cons ev evs ih =>
    cases ev with
    | doc x =>
      show getAmountsLoop conv (loopBody conv (amountsOf p a r) x) (evs ++ IterEvent.doc d :: post)
        = getAmountsLoop conv (loopBody conv (amountsOf p a r) x) (evs ++ post)
      rw [loopBody_amountsOf]
      exact ih _ _ _
    | fail e => rfl

theorem getAmountsLoop_keys (conv : GoFloat → Int) (events : List IterEvent) (p a r : Int) :
    ∃ p' a' r', (getAmountsLoop conv (amountsOf p a r) events).1 = amountsOf p' a' r' := by
  induction events generalizing p a r with
  | nil => exact ⟨p, a, r, rfl⟩
  | cons ev evs ih =>
    cases ev with
    | doc x =>
      simp only [getAmountsLoop, loopBody_amountsOf]
      exact ih _ _ _
    | fail e => exact ⟨p, a, r, rfl⟩

theorem getAmountsLoop_fail_after (conv : GoFloat → Int) (e : StorageError)
    (rest : List IterEvent) (xs : List Doc) (result : GoMap) :
    getAmountsLoop conv result (xs.map IterEvent.doc ++ IterEvent.fail e :: rest) =
        ((getAmountsLoop conv result (xs.map IterEvent.doc)).1, some (GoError.storage e)) ∧
      (getAmountsLoop conv result (xs.map IterEvent.doc)).2 = none := by
  induction xs generalizing result with
  | nil => simp [getAmountsLoop]
  | cons x xs ih => simpa [getAmountsLoop] using ih (loopBody conv result x)

theorem getAmountsLoop_error_storage (conv : GoFloat → Int) (events : List IterEvent)
    (result : GoMap) (err : GoError) (h : (getAmountsLoop conv result events).2 = some err) :
    ∃ e, err = GoError.storage e ∧ IterEvent.fail e ∈ events := by
  induction events generalizing result with
  | nil => simp [getAmountsLoop] at h
  | cons ev evs ih =>
    cases ev with
    | doc x =>
      obtain ⟨e, he, hmem⟩ := ih _ (by simpa [getAmountsLoop] using h)
      exact ⟨e, he, List.mem_cons_of_mem _ hmem⟩
    | fail e =>
      simp only [getAmountsLoop, Option.some.injEq] at h
      exact ⟨e, h.symm, List.mem_cons_self _ _⟩

theorem getCustomer_error_storage (client : Store) (id : String) (c : Option Customer)
    (err : GoError) (h : getCustomer client id = (c, some err)) :
    ∃ e, err = GoError.storage e ∧
      (client.customersWhereId id = CustomerQuery.fail e ∨
        client.customersWhereId id = CustomerQuery.doc (Except.error e)) := by
  unfold getCustomer at h
  cases hq : client.customersWhereId id with
  | done => rw [hq] at h; simp at h
  | fail e =>
    rw [hq] at h
    simp only [Prod.mk.injEq, Option.some.injEq] at h
    exact ⟨e, h.2.symm, Or.inl rfl⟩
  | doc r =>
    cases r with
    | error e =>
      rw [hq] at h
      simp only [Prod.mk.injEq, Option.some.injEq] at h
      exact ⟨e, h.2.symm, Or.inr rfl⟩
    | ok cust => rw [hq] at h; simp at h

/-! ## Aggregation -/

/-- C1, as amended: for every customer and every document sequence the store
yields without an error, in which every floating-point cost of a document
with one of the three statuses is finite with its truncation in the `int64`
range, `getAmounts` returns no error and the map with
exactly the keys "proposed", "approved" and "rejected", each holding the
integer sum of the truncated costs of the documents with that status and a
numeric cost, reduced to `int64` by wrap-around; the reduction changes nothing
when the sum is in the `int64` range, and for the empty sequence all three
values are 0. -/
theorem getAmounts_totals (conv : GoFloat → Int) (client : Store) (cust : Customer)
    (docs : List Doc) (h : ∀ d ∈ docs, d.costConvertsExactly = true) :
    getAmounts conv (client.withDocuments (collPath cust) (docs.map IterEvent.doc)) (some cust) =
        ([("proposed", wrapInt64 (specTotal "proposed" docs)),
          ("approved", wrapInt64 (specTotal "approved" docs)),
          ("rejected", wrapInt64 (specTotal "rejected" docs))], none) ∧
      (∀ key, inInt64 (specTotal key docs) →
        wrapInt64 (specTotal key docs) = specTotal key docs) ∧
      getAmounts conv (client.withDocuments (collPath cust) []) (some cust) =
        ([("proposed", 0), ("approved", 0), ("rejected", 0)], none) := by
  refine ⟨?_, fun key hk => wrapInt64_of_inInt64 _ hk, ?_⟩
  swap
  · simp only [getAmounts, withDocuments_documents, getAmountsLoop]
  rw [getAmounts_docs, total_eq_specTotal conv _ docs (Or.inl rfl) h,
    total_eq_specTotal conv _ docs (Or.inr (Or.inl rfl)) h,
    total_eq_specTotal conv _ docs (Or.inr (Or.inr rfl)) h]
  rfl

/-- Witness of C1 on the treatments of the end-to-end example. -/
theorem getAmounts_totals_witness :
    (∀ d ∈ exampleTreatments, d.costConvertsExactly = true) ∧
      getAmounts amd64Conv exampleStore (some exampleCustomer) =
        ([("proposed", 0), ("approved", 150), ("rejected", 10)], none) :=
  ⟨by decide, (getAmounts_totals amd64Conv baseStore exampleCustomer exampleTreatments
    (by decide)).1⟩

/-- Counterexample to C1 as stated: two approved treatments of cost `2 ^ 62`
have the integer sum `2 ^ 63`, and `getAmounts` returns `-2 ^ 63` for
"approved". -/
theorem integer_sum_overflow_counterexample :
    specTotal "approved" [treatment "approved" 4611686018427387904,
        treatment "approved" 4611686018427387904] = 9223372036854775808 ∧
      getAmounts amd64Conv
        (baseStore.withDocuments (collPath exampleCustomer)
          [IterEvent.doc (treatment "approved" 4611686018427387904),
           IterEvent.doc (treatment "approved" 4611686018427387904)])
        (some exampleCustomer) =
        ([("proposed", 0), ("approved", -9223372036854775808), ("rejected", 0)], none) := by
  decide

/-- C2: a document with no status field, a non-string status, a string status
other than the three keys, no cost field or a non-numeric cost, inserted at any
position of any sequence of iterator results, changes neither the map nor the
error `getAmounts` returns. -/
theorem getAmounts_insert_ignorable (conv : GoFloat → Int) (client : Store) (cust : Customer)
    (pre post : List IterEvent) (d : Doc) (h : d.ignorable) :
    getAmounts conv (client.withDocuments (collPath cust) (pre ++ IterEvent.doc d :: post))
        (some cust) =
      getAmounts conv (client.withDocuments (collPath cust) (pre ++ post)) (some cust) := by
  have hseed : [("proposed", (0 : Int)), ("approved", 0), ("rejected", 0)] = amountsOf 0 0 0 :=
    rfl
  simp only [getAmounts, withDocuments_documents, hseed]
  exact getAmountsLoop_insert_ignorable conv d h post pre 0 0 0

/-- Witness of C2: the "pending" treatment of the end-to-end example, inserted
between two counted ones. -/
theorem getAmounts_insert_ignorable_witness :
    (treatment "pending" 5).ignorable ∧
      getAmounts amd64Conv
        (baseStore.withDocuments (collPath exampleCustomer)
          ([IterEvent.doc (treatment "approved" 100)] ++
            IterEvent.doc (treatment "pending" 5) :: [IterEvent.doc (treatment "rejected" 10)]))
        (some exampleCustomer) =
      getAmounts amd64Conv
        (baseStore.withDocuments (collPath exampleCustomer)
          ([IterEvent.doc (treatment "approved" 100)] ++ [IterEvent.doc (treatment "rejected" 10)]))
        (some exampleCustomer) :=
  have hd : (treatment "pending" 5).ignorable :=
    Or.inr (Or.inr (Or.inl ⟨"pending", rfl, by decide, by decide, by decide⟩))
  ⟨hd, getAmounts_insert_ignorable amd64Conv baseStore exampleCustomer _ _ _ hd⟩

/-- C3, as amended: for a non-nil customer, whatever the iterator yields
(ending normally or with an error), the map `getAmounts` returns has exactly
the keys "proposed", "approved" and "rejected"; for a nil customer it returns
the error "Customer is nil" together with the empty map. -/
theorem getAmounts_keys (conv : GoFloat → Int) (client : Store) (cust : Customer) :
    (getAmounts conv client (some cust)).1.keys = ["proposed", "approved", "rejected"] ∧
      getAmounts conv client none = ([], some (GoError.errorf "Customer is nil")) := by
  refine ⟨?_, rfl⟩
  obtain ⟨p, a, r, h⟩ := getAmountsLoop_keys conv (client.documents (collPath cust)) 0 0 0
  have hseed : [("proposed", (0 : Int)), ("approved", 0), ("rejected", 0)] = amountsOf 0 0 0 :=
    rfl
  simp only [getAmounts, hseed, h]
  rfl

/-- Counterexample to C3 as stated: for a nil customer the returned map has no
key at all, so "proposed" is missing. -/
theorem getAmounts_nil_customer_empty :
    (getAmounts amd64Conv exampleStore none).1.keys = [] ∧
      (getAmounts amd64Conv exampleStore none).1.get "proposed" = none := by
  decide

/-- C4: when the iterator fails with `e` right after the documents `xs`,
`getAmounts` returns `e` together with the map it returns, without error, for
the sequence that ends after `xs`. -/
theorem getAmounts_keeps_totals_on_error (conv : GoFloat → Int) (client : Store) (cust : Customer)
    (xs : List Doc) (e : StorageError) (rest : List IterEvent) :
    getAmounts conv
        (client.withDocuments (collPath cust) (xs.map IterEvent.doc ++ IterEvent.fail e :: rest))
        (some cust) =
      ((getAmounts conv (client.withDocuments (collPath cust) (xs.map IterEvent.doc))
          (some cust)).1, some (GoError.storage e)) ∧
      (getAmounts conv (client.withDocuments (collPath cust) (xs.map IterEvent.doc))
          (some cust)).2 = none := by
  simp only [getAmounts, withDocuments_documents]
  exact getAmountsLoop_fail_after conv e rest xs _

/-- C5, as amended: a document whose status is a key of the result map adds
its converted cost to that bucket, and the conversion agrees across
representations and truncates toward zero wherever `int64` can hold the result:
for every `int64` value `n`, the integer cost `n` and the floating-point cost
`n.0` both add `n`; for every finite floating-point cost whose truncation `t`
toward zero is in the `int64` range the amount added is `t`; the cost 5.9
adds 5. -/
theorem cost_coercion_truncates (conv : GoFloat → Int) (result : GoMap) (key : String)
    (old : Int) (data : Doc) (hs : data.get "status" = some (Value.str key))
    (hr : result.get key = some old) :
    (∀ n, inInt64 n →
      (data.get "cost" = some (Value.int64 n) ∨ data.get "cost" = some (Value.int n) ∨
        data.get "cost" = some (Value.float64 (GoFloat.ofInt n)) ∨
        data.get "cost" = some (Value.float32 (GoFloat.ofInt n))) →
      loopBody conv result data = result.set key (wrapInt64 (old + n))) ∧
    (∀ v t, v.trunc = some t → inInt64 t →
      (data.get "cost" = some (Value.float64 v) ∨ data.get "cost" = some (Value.float32 v)) →
      loopBody conv result data = result.set key (wrapInt64 (old + t))) ∧
    (data.get "cost" = some (Value.float64 fivePointNine) →
      loopBody conv result data = result.set key (wrapInt64 (old + 5))) := by
  have hfloat : ∀ v t, v.trunc = some t → inInt64 t → floatToInt64 conv v = t := by
    intro v t hv ht
    simp [floatToInt64, hv, ht]
  have hofInt : ∀ n : Int, (GoFloat.ofInt n).trunc = some n := by
    intro n
    by_cases hn : n < 0
    · simp only [GoFloat.ofInt, GoFloat.trunc, hn, decide_True, le_refl, if_true, Int.toNat_zero,
        pow_zero, mul_one, Option.some.injEq]
      omega
    · simp only [GoFloat.ofInt, GoFloat.trunc, hn, decide_False, le_refl, if_true,
        Int.toNat_zero, pow_zero, mul_one, Option.some.injEq]
      simp only [Bool.false_eq_true, if_false]
      omega
  refine ⟨?_, ?_, ?_⟩
  · intro n hn hc
    rcases hc with hc | hc | hc | hc <;>
      simp [loopBody, hs, hr, hc, costSwitch, hfloat _ n (hofInt n) hn]
  · intro v t hv ht hc
    rcases hc with hc | hc <;> simp [loopBody, hs, hr, hc, costSwitch, hfloat v t hv ht]
  · intro hc
    have h5 : fivePointNine.trunc = some 5 := by decide
    simp [loopBody, hs, hr, hc, costSwitch, hfloat _ 5 h5 (by decide)]

/-- Witness of C5: on the seeded map, an approved document of cost 5.9 adds 5,
and the costs 7 and 7.0 both add 7. -/
theorem cost_coercion_truncates_witness :
    loopBody amd64Conv [("proposed", 0), ("approved", 0), ("rejected", 0)]
        [("status", Value.str "approved"), ("cost", Value.float64 fivePointNine)] =
        [("proposed", 0), ("approved", 5), ("rejected", 0)] ∧
      loopBody amd64Conv [("proposed", 0), ("approved", 0), ("rejected", 0)]
        [("status", Value.str "approved"), ("cost", Value.float64 (GoFloat.ofInt 7))] =
        loopBody amd64Conv [("proposed", 0), ("approved", 0), ("rejected", 0)]
          [("status", Value.str "approved"), ("cost", Value.int64 7)] :=
  ⟨(cost_coercion_truncates amd64Conv [("proposed", 0), ("approved", 0), ("rejected", 0)]
      "approved" 0 [("status", Value.str "approved"), ("cost", Value.float64 fivePointNine)]
      rfl rfl).2.2 rfl,
   ((cost_coercion_truncates amd64Conv [("proposed", 0), ("approved", 0), ("rejected", 0)]
      "approved" 0 [("status", Value.str "approved"), ("cost", Value.float64 (GoFloat.ofInt 7))]
      rfl rfl).1 7 (by decide) (Or.inr (Or.inr (Or.inl rfl)))).trans (by decide)⟩

/-- Counterexample to C5 as stated: the floating-point cost `2 ^ 63` truncates
to `2 ^ 63`, which no `int64` holds; on amd64 the amount added is `-2 ^ 63`, and
under no implementation is it the truncated value. -/
theorem cost_coercion_out_of_range :
    twoPow63.trunc = some 9223372036854775808 ∧
      getAmounts amd64Conv
        (baseStore.withDocuments (collPath exampleCustomer)
          [IterEvent.doc [("status", Value.str "approved"), ("cost", Value.float64 twoPow63)]])
        (some exampleCustomer) =
        ([("proposed", 0), ("approved", -9223372036854775808), ("rejected", 0)], none) ∧
      ∀ conv, costSwitch conv (Value.float64 twoPow63) ≠ some 9223372036854775808 := by
  refine ⟨by decide, by decide, ?_⟩
  intro conv h
  have ht : twoPow63.trunc = some 9223372036854775808 := by decide
  have h1 : ¬ inInt64 9223372036854775808 := by decide
  simp only [costSwitch, floatToInt64, ht, h1, if_false, Option.some.injEq] at h
  have h2 := inInt64_wrapInt64 (conv twoPow63)
  rw [h] at h2
  exact h1 h2

/-! ## The handler -/

/-- C6: when `getCustomer` reports no document and no error for the
identifier `id`, `customerHandler` answers with the code 404 and the body of
status "fail" whose data holds the title `Customer "id" not found`, the
identifier copied as it came. -/
theorem customerHandler_not_found (conv : GoFloat → Int) (client : Store) (id : String)
    (h : getCustomer client id = (none, none)) :
    customerHandler conv client id =
      { code := 404, contentType := "application/json",
        payload := [("status", Field.text "fail"),
          ("data", Field.strings [("title", "Customer \"" ++ id ++ "\" not found")])] } := by
  simp [customerHandler, h, writeJSON]

/-- Witness of C6: the identifier "abd", which the example store does not
hold. -/
theorem customerHandler_not_found_witness :
    getCustomer exampleStore "abd" = (none, none) ∧
      customerHandler amd64Conv exampleStore "abd" =
        { code := 404, contentType := "application/json",
          payload := [("status", Field.text "fail"),
            ("data", Field.strings [("title", "Customer \"abd\" not found")])] } :=
  ⟨by decide, customerHandler_not_found amd64Conv exampleStore "abd" (by decide)⟩

/-- C7: when `getCustomer` finds the customer and `getAmounts` returns the map
`m` without error, `customerHandler` answers with the code 200 and the body of
status "success" whose data is `m`; for the treatments approved 100, approved
50, rejected 10 and pending 5 the data is proposed 0, approved 150,
rejected 10. -/
theorem customerHandler_success (conv : GoFloat → Int) (client : Store) (id : String)
    (cust : Customer) (hc : getCustomer client id = (some cust, none)) :
    (∀ m, getAmounts conv client (some cust) = (m, none) →
      customerHandler conv client id =
        { code := 200, contentType := "application/json",
          payload := [("status", Field.text "success"), ("data", Field.amounts m)] }) ∧
    (client.documents (collPath cust) = exampleTreatments.map IterEvent.doc →
      customerHandler conv client id =
        { code := 200, contentType := "application/json",
          payload := [("status", Field.text "success"),
            ("data", Field.amounts [("proposed", 0), ("approved", 150), ("rejected", 10)])] }) := by
  have hgen : ∀ m, getAmounts conv client (some cust) = (m, none) →
      customerHandler conv client id =
        { code := 200, contentType := "application/json",
          payload := [("status", Field.text "success"), ("data", Field.amounts m)] } := by
    intro m hm
    simp [customerHandler, hc, hm, writeJSON]
  refine ⟨hgen, fun hd => hgen _ ?_⟩
  simp only [getAmounts, hd]
  rfl

/-- Witness of C7: the end-to-end example, customer "abc" with the email
"a@b.com". -/
theorem customerHandler_success_witness :
    getCustomer exampleStore "abc" = (some exampleCustomer, none) ∧
      customerHandler amd64Conv exampleStore "abc" =
        { code := 200, contentType := "application/json",
          payload := [("status", Field.text "success"),
            ("data", Field.amounts [("proposed", 0), ("approved", 150), ("rejected", 10)])] } :=
  ⟨by decide, (customerHandler_success amd64Conv exampleStore "abc" exampleCustomer
    (by decide)).2 (by decide)⟩

/-- C8: an error `e` from `getCustomer` gives the code 500 and the body of
status "fail" whose data is "Error fetching customer: " followed by the message
of `e`; an error `e` from `getAmounts` gives the code 500 and the body of
status "fail" whose data is "Unable to fetch amounts: " followed by the message
of `e`; and the response code is 500 exactly when one of the two returned an
error. -/
theorem customerHandler_error_responses (conv : GoFloat → Int) (client : Store) (id : String) :
    (∀ c e, getCustomer client id = (c, some e) →
      customerHandler conv client id =
        { code := 500, contentType := "application/json",
          payload := [("status", Field.text "fail"),
            ("data", Field.text ("Error fetching customer: " ++ e.Error))] }) ∧
    (∀ cust m e, getCustomer client id = (some cust, none) →
      getAmounts conv client (some cust) = (m, some e) →
      customerHandler conv client id =
        { code := 500, contentType := "application/json",
          payload := [("status", Field.text "fail"),
            ("data", Field.text ("Unable to fetch amounts: " ++ e.Error))] }) ∧
    ((customerHandler conv client id).code = 500 ↔
      ((getCustomer client id).2 ≠ none ∨
        ∃ cust, getCustomer client id = (some cust, none) ∧
          (getAmounts conv client (some cust)).2 ≠ none)) := by
  refine ⟨?_, ?_, ?_⟩
  · intro c e h
    simp [customerHandler, h, writeJSON]
  · intro cust m e h1 h2
    simp [customerHandler, h1, h2, writeJSON]
  · rcases h1 : getCustomer client id with ⟨c, e⟩
    cases e with
    | some err => simp [customerHandler, h1, writeJSON]
    | none =>
      cases c with
      | none => simp [customerHandler, h1, writeJSON]
      | some cust =>
        rcases h2 : getAmounts conv client (some cust) with ⟨m, e2⟩
        cases e2 with
        | some err => simp [customerHandler, h1, h2, writeJSON]
        | none => simp [customerHandler, h1, h2, writeJSON]

/-- Witness of C8: a store whose customer query fails, and a store whose
treatment iterator fails after the first document. -/
theorem customerHandler_error_responses_witness :
    customerHandler amd64Conv brokenStore "abc" =
        { code := 500, contentType := "application/json",
          payload := [("status", Field.text "fail"),
            ("data", Field.text "Error fetching customer: unavailable")] } ∧
      customerHandler amd64Conv flakyStore "abc" =
        { code := 500, contentType := "application/json",
          payload := [("status", Field.text "fail"),
            ("data", Field.text "Unable to fetch amounts: deadline exceeded")] } :=
  ⟨(customerHandler_error_responses amd64Conv brokenStore "abc").1 none
      (GoError.storage { msg := "unavailable" }) (by decide),
   (customerHandler_error_responses amd64Conv flakyStore "abc").2.1 exampleCustomer
      [("proposed", 0), ("approved", 100), ("rejected", 0)]
      (GoError.storage { msg := "deadline exceeded" }) (by decide) (by decide)⟩

/-- C9, as amended: whatever `getCustomer` reports, `customerHandler` passes
`getAmounts` a non-nil customer only, so the "Customer is nil" branch is out of
reach of the HTTP path: the response is the one the handler writes with any
function in the place of `getAmounts` that agrees with it on the non-nil
customers, whatever that function does for nil; and every message reported in
a body of status "fail" is the message of an error the store raised, in the
customer query or in the treatment iterator of the customer found. -/
theorem customerHandler_nil_branch_unreachable (conv : GoFloat → Int) (client : Store)
    (id : String) :
    (∀ g : Option Customer → GoMap × Option GoError,
      (∀ cust, g (some cust) = getAmounts conv client (some cust)) →
      customerHandler conv client id = customerHandlerWith g client id) ∧
    (∀ t, (customerHandler conv client id).payload =
        [("status", Field.text "fail"), ("data", Field.text t)] →
      ∃ e : StorageError,
        (t = "Error fetching customer: " ++ e.msg ∧
          (client.customersWhereId id = CustomerQuery.fail e ∨
            client.customersWhereId id = CustomerQuery.doc (Except.error e))) ∨
        (∃ cust, getCustomer client id = (some cust, none) ∧
          IterEvent.fail e ∈ client.documents (collPath cust) ∧
          t = "Unable to fetch amounts: " ++ e.msg)) := by
  constructor
  · intro g hg
    rcases h1 : getCustomer client id with ⟨c, e⟩
    cases e with
    | some err => simp [customerHandler, customerHandlerWith, h1]
    | none =>
      cases c with
      | none => simp [customerHandler, customerHandlerWith, h1]
      | some cust => simp [customerHandler, customerHandlerWith, h1, hg cust]
  · intro t ht
    rcases h1 : getCustomer client id with ⟨c, e⟩
    cases e with
    | some err =>
      obtain ⟨e, he, hq⟩ := getCustomer_error_storage client id c err h1
      subst he
      simp [customerHandler, h1, writeJSON, GoError.Error] at ht
      exact ⟨e, Or.inl ⟨ht.symm, hq⟩⟩
    | none =>
      cases c with
      | none => simp [customerHandler, h1, writeJSON] at ht
      | some cust =>
        rcases h2 : getAmounts conv client (some cust) with ⟨m, e2⟩
        cases e2 with
        | some err =>
          have herr : (getAmountsLoop conv [("proposed", 0), ("approved", 0), ("rejected", 0)]
              (client.documents (collPath cust))).2 = some err := by
            have := congrArg Prod.snd h2
            simpa [getAmounts] using this
          obtain ⟨e, he, hmem⟩ := getAmountsLoop_error_storage conv _ _ err herr
          subst he
          simp [customerHandler, h1, h2, writeJSON, GoError.Error] at ht
          exact ⟨e, Or.inr ⟨cust, rfl, hmem, ht.symm⟩⟩
        | none => simp [customerHandler, h1, h2, writeJSON] at ht

/-- Witness of C9: for the customer "abc", whose treatment iterator fails,
the response is the same with `getAmountsNilOk` in the place of `getAmounts`,
and the message reported is the one the iterator raised. -/
theorem customerHandler_nil_branch_unreachable_witness :
    (∀ cust, getAmountsNilOk amd64Conv flakyStore (some cust) =
        getAmounts amd64Conv flakyStore (some cust)) ∧
      getAmountsNilOk amd64Conv flakyStore none ≠ getAmounts amd64Conv flakyStore none ∧
      customerHandler amd64Conv flakyStore "abc" =
        customerHandlerWith (getAmountsNilOk amd64Conv flakyStore) flakyStore "abc" ∧
      (customerHandler amd64Conv flakyStore "abc").payload =
        [("status", Field.text "fail"),
          ("data", Field.text "Unable to fetch amounts: deadline exceeded")] ∧
      ∃ e : StorageError,
        ("Unable to fetch amounts: deadline exceeded" = "Error fetching customer: " ++ e.msg ∧
          (flakyStore.customersWhereId "abc" = CustomerQuery.fail e ∨
            flakyStore.customersWhereId "abc" = CustomerQuery.doc (Except.error e))) ∨
        (∃ cust, getCustomer flakyStore "abc" = (some cust, none) ∧
          IterEvent.fail e ∈ flakyStore.documents (collPath cust) ∧
          "Unable to fetch amounts: deadline exceeded" = "Unable to fetch amounts: " ++ e.msg) :=
  ⟨fun _ => rfl, by decide,
   (customerHandler_nil_branch_unreachable amd64Conv flakyStore "abc").1
      (getAmountsNilOk amd64Conv flakyStore) (fun _ => rfl),
   by decide,
   (customerHandler_nil_branch_unreachable amd64Conv flakyStore "abc").2
      "Unable to fetch amounts: deadline exceeded" (by decide)⟩

/-- Counterexample to C9 as stated: the message of the nil-customer error is
the text "Customer is nil", and when the treatment iterator of the customer
found raises an error with that message, the text appears in the response. -/
theorem nil_message_text_in_response :
    (getAmounts amd64Conv nilTextStore none).2.map GoError.Error = some "Customer is nil" ∧
      customerHandler amd64Conv nilTextStore "abc" =
        { code := 500, contentType := "application/json",
          payload := [("status", Field.text "fail"),
            ("data", Field.text ("Unable to fetch amounts: " ++ "Customer is nil"))] } := by
  decide

/-! ## Algebra of the aggregation -/

/-- C10: for error-free document sequences `xs` and `ys`, the map `getAmounts`
returns for `xs ++ ys` is the key-wise `int64` sum of the maps it returns for
`xs` and for `ys`; and it returns the same result for every permutation of
`xs`. -/
theorem getAmounts_append_perm (conv : GoFloat → Int) (client : Store) (cust : Customer)
    (xs ys : List Doc) :
    (getAmounts conv (client.withDocuments (collPath cust) ((xs ++ ys).map IterEvent.doc))
        (some cust)).1 =
      GoMap.addInt64
        (getAmounts conv (client.withDocuments (collPath cust) (xs.map IterEvent.doc))
          (some cust)).1
        (getAmounts conv (client.withDocuments (collPath cust) (ys.map IterEvent.doc))
          (some cust)).1 ∧
    ∀ zs, List.Perm xs zs →
      getAmounts conv (client.withDocuments (collPath cust) (zs.map IterEvent.doc)) (some cust) =
        getAmounts conv (client.withDocuments (collPath cust) (xs.map IterEvent.doc))
          (some cust) := by
  have happ : ∀ key, total conv key (xs ++ ys) = total conv key xs + total conv key ys := by
    intro key
    simp [total, List.filterMap_append, List.sum_append]
  constructor
  · rw [getAmounts_docs, getAmounts_docs, getAmounts_docs]
    have hl1 : ∀ p a r : Int,
        List.lookup "proposed" [("proposed", p), ("approved", a), ("rejected", r)] = some p :=
      fun _ _ _ => rfl
    have hl2 : ∀ p a r : Int,
        List.lookup "approved" [("proposed", p), ("approved", a), ("rejected", r)] = some a :=
      fun _ _ _ => rfl
    have hl3 : ∀ p a r : Int,
        List.lookup "rejected" [("proposed", p), ("approved", a), ("rejected", r)] = some r :=
      fun _ _ _ => rfl
    simp only [GoMap.addInt64, amountsOf, GoMap.get, List.map_cons, List.map_nil, happ,
      hl1, hl2, hl3, Option.getD_some, wrapInt64_add_wrap]
  · intro zs hp
    have hperm : ∀ key, total conv key zs = total conv key xs := by
      intro key
      exact ((hp.filterMap (qualifyingCost conv key)).sum_eq).symm
    rw [getAmounts_docs, getAmounts_docs, hperm, hperm, hperm]

/-- Witness of C10: the end-to-end treatments with the first two exchanged. -/
theorem getAmounts_append_perm_witness :
    List.Perm exampleTreatments
        [treatment "approved" 50, treatment "approved" 100, treatment "rejected" 10,
          treatment "pending" 5] ∧
      getAmounts amd64Conv
        (baseStore.withDocuments (collPath exampleCustomer)
          ([treatment "approved" 50, treatment "approved" 100, treatment "rejected" 10,
            treatment "pending" 5].map IterEvent.doc))
        (some exampleCustomer) =
      getAmounts amd64Conv exampleStore (some exampleCustomer) :=
  ⟨List.Perm.swap _ _ _,
   (getAmounts_append_perm amd64Conv baseStore exampleCustomer exampleTreatments []).2 _
    (List.Perm.swap _ _ _)⟩

end PetTheory
